import Mathlib

/-!
Shallow embedding of the QCustomPlot color-scale layout element
(`src/layoutelements/layoutelement-colorscale.cpp`) and of the financial /
graph plottable data structs (`src/plottables/plottable-financial.h` and the
graph plottable header).  C++ `double` values are modelled as `ℚ`: the code
under consideration only copies and compares them, it performs no rounding
floating-point arithmetic.  Qt / QCustomPlot classes that are outside the
given sources (QCPRange, QCPAxis, QCPAxisRect, QCPColorGradient, QImage,
QCPDataContainer) are modelled from the specification, as noted on each
definition.
-/

/-- Modelled from the spec: `QCPRange` (axis/range.h, not among the given
sources) is a plain pair of `double` bounds `lower`, `upper`; its two-argument
constructor normalizes the bounds so that `lower ≤ upper`. -/
structure QCPRange where
  lower : ℚ
  upper : ℚ
deriving DecidableEq, Repr

/-- Model of the two-argument `QCPRange` constructor, which normalizes. -/
def QCPRange.make (l u : ℚ) : QCPRange :=
  if l ≤ u then ⟨l, u⟩ else ⟨u, l⟩

/-- A range `r` contains a value `x` when `r.lower ≤ x ≤ r.upper`. -/
def QCPRange.contains (r : QCPRange) (x : ℚ) : Prop :=
  r.lower ≤ x ∧ x ≤ r.upper

/-- Financial OHLC data point, translated from `QCPFinancialData` in
`src/plottables/plottable-financial.h`. -/
structure QCPFinancialData where
  key : ℚ
  «open» : ℚ
  high : ℚ
  low : ℚ
  close : ℚ
deriving DecidableEq, Repr

/-- Translation of `QCPFinancialData::sortKey`. -/
def QCPFinancialData.sortKey (d : QCPFinancialData) : ℚ := d.key

/-- Translation of `QCPFinancialData::fromSortKey`:
`QCPFinancialData(sortKey, 0, 0, 0, 0)`. -/
def QCPFinancialData.fromSortKey (sortKey : ℚ) : QCPFinancialData :=
  ⟨sortKey, 0, 0, 0, 0⟩

/-- Translation of `QCPFinancialData::sortKeyIsMainKey`. -/
def QCPFinancialData.sortKeyIsMainKey : Bool := true

/-- Translation of `QCPFinancialData::mainKey`. -/
def QCPFinancialData.mainKey (d : QCPFinancialData) : ℚ := d.key

/-- Translation of `QCPFinancialData::mainValue`. -/
def QCPFinancialData.mainValue (d : QCPFinancialData) : ℚ := d.«open»

/-- Translation of `QCPFinancialData::valueRange`:
`return QCPRange(low, high)`. -/
def QCPFinancialData.valueRange (d : QCPFinancialData) : QCPRange :=
  QCPRange.make d.low d.high

/-- Graph data point, translated from `QCPGraphData` in the graph plottable
header. -/
structure QCPGraphData where
  key : ℚ
  value : ℚ
deriving DecidableEq, Repr

/-- Translation of `QCPGraphData::sortKey`. -/
def QCPGraphData.sortKey (d : QCPGraphData) : ℚ := d.key

/-- Translation of `QCPGraphData::fromSortKey`: `QCPGraphData(sortKey, 0)`. -/
def QCPGraphData.fromSortKey (sortKey : ℚ) : QCPGraphData :=
  ⟨sortKey, 0⟩

/-- Translation of `QCPGraphData::sortKeyIsMainKey`. -/
def QCPGraphData.sortKeyIsMainKey : Bool := true

/-- Translation of `QCPGraphData::mainKey`. -/
def QCPGraphData.mainKey (d : QCPGraphData) : ℚ := d.key

/-- Translation of `QCPGraphData::mainValue`. -/
def QCPGraphData.mainValue (d : QCPGraphData) : ℚ := d.value

/-- Translation of `QCPGraphData::valueRange`:
`return QCPRange(value, value)`. -/
def QCPGraphData.valueRange (d : QCPGraphData) : QCPRange :=
  QCPRange.make d.value d.value

/-- Key ordering used by the data containers: datum `a` precedes datum `b`
when `a.sortKey ≤ b.sortKey`. -/
def keyLE {α : Type} (k : α → ℚ) (a b : α) : Prop := k a ≤ k b

instance keyLE.decRel {α : Type} (k : α → ℚ) : DecidableRel (keyLE k) :=
  fun a b => inferInstanceAs (Decidable (k a ≤ k b))

instance keyLE.total {α : Type} (k : α → ℚ) : IsTotal α (keyLE k) :=
  ⟨fun a b => le_total (k a) (k b)⟩

instance keyLE.trans {α : Type} (k : α → ℚ) : IsTrans α (keyLE k) :=
  ⟨fun _ _ _ => le_trans⟩

/-- A container's contents are sorted in ascending order of sort key. -/
def sortedByKey {α : Type} (k : α → ℚ) (xs : List α) : Prop :=
  List.Sorted (keyLE k) xs

instance sortedByKey.dec {α : Type} (k : α → ℚ) (xs : List α) :
    Decidable (sortedByKey k xs) :=
  inferInstanceAs (Decidable (List.Sorted (keyLE k) xs))

/-- Modelled from the spec: `QCPDataContainer<DataType>::set` (the generic
container is not among the given sources) replaces the container's contents
with the given points, first sorting them by key unless the caller asserts
they are already sorted. -/
def QCPDataContainer.set {α : Type} (k : α → ℚ) (newData : List α)
    (alreadySorted : Bool) : List α :=
  if alreadySorted then newData else List.insertionSort (keyLE k) newData

/-- Modelled from the spec: `QCPDataContainer<DataType>::add` (not among the
given sources) merges the given points into the sorted contents, first
sorting the new points by key unless the caller asserts they are already
sorted. -/
def QCPDataContainer.add {α : Type} (k : α → ℚ) (cont newData : List α)
    (alreadySorted : Bool) : List α :=
  let nd := if alreadySorted then newData
            else List.insertionSort (keyLE k) newData
  cont.merge nd (fun a b => decide (keyLE k a b))

/-- Modelled from the spec: the single-datum `QCPDataContainer<DataType>::add`
(not among the given sources) inserts one point at its sorted position. -/
def QCPDataContainer.addOne {α : Type} (k : α → ℚ) (cont : List α)
    (x : α) : List α :=
  List.orderedInsert (keyLE k) x cont

/-- Pointwise zip of the five column vectors of the financial `setData` /
`addData` overloads into OHLC data points. -/
def zipFinancial : List ℚ → List ℚ → List ℚ → List ℚ → List ℚ →
    List QCPFinancialData
  | k :: ks, o :: os, h :: hs, l :: ls, c :: cs =>
      ⟨k, o, h, l, c⟩ :: zipFinancial ks os hs ls cs
  | _, _, _, _, _ => []

/-- Modelled from the spec: `QCPFinancial::setData(keys, open, high, low,
close, alreadySorted)` (only declared in the given header) replaces the data
container's contents with the given points. -/
def QCPFinancial.setData (keys o h l c : List ℚ) (alreadySorted : Bool) :
    List QCPFinancialData :=
  QCPDataContainer.set QCPFinancialData.sortKey
    (zipFinancial keys o h l c) alreadySorted

/-- Modelled from the spec: the vector overload of `QCPFinancial::addData`
(only declared in the given header) adds the given points to the container. -/
def QCPFinancial.addData (cont : List QCPFinancialData)
    (keys o h l c : List ℚ) (alreadySorted : Bool) : List QCPFinancialData :=
  QCPDataContainer.add QCPFinancialData.sortKey cont
    (zipFinancial keys o h l c) alreadySorted

/-- Modelled from the spec: the single-point overload of
`QCPFinancial::addData` (only declared in the given header). -/
def QCPFinancial.addDataPoint (cont : List QCPFinancialData)
    (key o h l c : ℚ) : List QCPFinancialData :=
  QCPDataContainer.addOne QCPFinancialData.sortKey cont ⟨key, o, h, l, c⟩

/-- Modelled from the spec: `QCPGraph::setData(keys, values, alreadySorted)`
(only declared in the given header). -/
def QCPGraph.setData (keys values : List ℚ) (alreadySorted : Bool) :
    List QCPGraphData :=
  QCPDataContainer.set QCPGraphData.sortKey
    (List.zipWith QCPGraphData.mk keys values) alreadySorted

/-- Modelled from the spec: the vector overload of `QCPGraph::addData` (only
declared in the given header). -/
def QCPGraph.addData (cont : List QCPGraphData) (keys values : List ℚ)
    (alreadySorted : Bool) : List QCPGraphData :=
  QCPDataContainer.add QCPGraphData.sortKey cont
    (List.zipWith QCPGraphData.mk keys values) alreadySorted

/-- Modelled from the spec: the single-point overload of `QCPGraph::addData`
(only declared in the given header). -/
def QCPGraph.addDataPoint (cont : List QCPGraphData) (key value : ℚ) :
    List QCPGraphData :=
  QCPDataContainer.addOne QCPGraphData.sortKey cont ⟨key, value⟩

/-- Axis sides, from `QCPAxis::AxisType`. -/
inductive AxisType where
  | atLeft
  | atRight
  | atTop
  | atBottom
deriving DecidableEq, Repr

/-- Axis orientations, from the Qt orientation enum. -/
inductive QtOrientation where
  | horizontal
  | vertical
deriving DecidableEq, Repr

/-- Translation of the static `QCPAxis::orientation(AxisType)`: left and
right axes are vertical, top and bottom axes horizontal. -/
def AxisType.orientation : AxisType → QtOrientation
  | .atLeft => .vertical
  | .atRight => .vertical
  | .atTop => .horizontal
  | .atBottom => .horizontal

/-- Scale types, from `QCPAxis::ScaleType`. -/
inductive ScaleType where
  | stLinear
  | stLogarithmic
deriving DecidableEq, Repr

/-- Modelled from the spec: the per-axis state of a `QCPAxis` (not among the
given sources) that the color-scale code reads or writes.  The accessors
`setTicks`, `setTickLabels`, `setRange`, `setLabel`, `setScaleType`,
`setScaleLogBase`, `range`, `label`, `scaleLogBase`, `rangeReversed` are
modelled as plain field access and assignment. -/
structure AxisState where
  ticks : Bool
  tickLabels : Bool
  range : QCPRange
  label : String
  scaleType : ScaleType
  scaleLogBase : ℚ
  rangeReversed : Bool
deriving DecidableEq, Repr

/-- Modelled from the spec: the defaults of a freshly constructed `QCPAxis`
(ticks and tick labels on, range `(0, 5)`, empty label, linear scale, log
base 10, not reversed). -/
def AxisState.default : AxisState :=
  ⟨true, true, ⟨0, 5⟩, "", .stLinear, 10, false⟩

/-- The four axes of an axis rect. -/
structure AxesQuad where
  left : AxisState
  right : AxisState
  top : AxisState
  bottom : AxisState
deriving DecidableEq, Repr

/-- Look up the axis at the given side, as `QCPAxisRect::axis(type)`. -/
def AxesQuad.get (q : AxesQuad) : AxisType → AxisState
  | .atLeft => q.left
  | .atRight => q.right
  | .atTop => q.top
  | .atBottom => q.bottom

/-- Replace the axis at the given side. -/
def AxesQuad.set (q : AxesQuad) : AxisType → AxisState → AxesQuad
  | .atLeft, a => { q with left := a }
  | .atRight, a => { q with right := a }
  | .atTop, a => { q with top := a }
  | .atBottom, a => { q with bottom := a }

/-- Apply a side-dependent update to all four axes, as the `foreach` loops
of the color-scale code do. -/
def AxesQuad.mapAll (q : AxesQuad) (f : AxisType → AxisState → AxisState) :
    AxesQuad :=
  ⟨f .atLeft q.left, f .atRight q.right, f .atTop q.top, f .atBottom q.bottom⟩

/-- Modelled from the spec: a `Qt::Orientations` flag set. -/
structure OrientationFlags where
  horizontal : Bool
  vertical : Bool
deriving DecidableEq, Repr

/-- The flag set holding exactly one orientation. -/
def OrientationFlags.single : QtOrientation → OrientationFlags
  | .horizontal => ⟨true, false⟩
  | .vertical => ⟨false, true⟩

/-- Translation of `QFlags::testFlag`. -/
def OrientationFlags.test (f : OrientationFlags) : QtOrientation → Bool
  | .horizontal => f.horizontal
  | .vertical => f.vertical

/-- Modelled from the spec: a `QImage` as a list of scanlines of RGB pixel
values. -/
abbrev Image := List (List ℕ)

/-- Modelled from the spec: `QImage::mirrored(horizontally, vertically)`
flips each scanline left-to-right and/or flips the scanline order. -/
def mirrorImage (mh mv : Bool) (img : Image) : Image :=
  let i1 := if mv then img.reverse else img
  if mh then i1.map List.reverse else i1

/-- State of the internal `QCPColorScaleAxisRectPrivate`: its four axes, the
cached gradient image with its invalidation flag
(`mGradientImageInvalidated`), its pixel rect dimensions (assigned by the
layout via `update`), and the range-drag / range-zoom configuration
inherited from `QCPAxisRect` (modelled from the spec; `QCPAxisRect` is not
among the given sources). -/
structure AxisRectState where
  axes : AxesQuad
  gradientImage : Image
  gradientImageInvalidated : Bool
  rectWidth : ℕ
  rectHeight : ℕ
  rangeDragFlags : OrientationFlags
  rangeZoomFlags : OrientationFlags
  rangeDragHorzAxis : Option AxisType
  rangeDragVertAxis : Option AxisType
  rangeZoomHorzAxis : Option AxisType
  rangeZoomVertAxis : Option AxisType
deriving DecidableEq, Repr

/-- Translation of `QCPAxisRect::rangeDragAxis(orientation)` (modelled from
the spec as field access). -/
def AxisRectState.rangeDragAxis (ar : AxisRectState) :
    QtOrientation → Option AxisType
  | .horizontal => ar.rangeDragHorzAxis
  | .vertical => ar.rangeDragVertAxis

/-- Translation of `QCPAxisRect::rangeZoomAxis(orientation)` (modelled from
the spec as field access). -/
def AxisRectState.rangeZoomAxis (ar : AxisRectState) :
    QtOrientation → Option AxisType
  | .horizontal => ar.rangeZoomHorzAxis
  | .vertical => ar.rangeZoomVertAxis

/-- State of a `QCPColorScale`: its stored fields `mAxisType`, `mDataRange`,
`mDataScaleType`, `mGradient`, `mBarWidth`, plus the guarded pointers
`mAxisRect` and `mColorAxis` (the latter identified by the side of the axis
it points to).  Modelled from the spec: a `QCPColorGradient` (not among the
given sources) is an opaque value of a type `G` with decidable equality
(`operator!=`); its level count and per-value color are supplied as
functions `lc : G → ℕ` and `col : G → ℚ → QCPRange → ℕ` where needed. -/
structure ColorScaleState (G : Type) where
  axisType : AxisType
  dataRange : QCPRange
  dataScaleType : ScaleType
  gradient : G
  barWidth : ℤ
  axisRect : Option AxisRectState
  colorAxis : Option AxisType
deriving DecidableEq, Repr

/-- Signals emitted by `QCPColorScale`. -/
inductive CSSignal (G : Type) where
  | dataRangeChanged (r : QCPRange)
  | dataScaleTypeChanged (t : ScaleType)
  | gradientChanged (g : G)
deriving DecidableEq, Repr

/-- Apply a mutation to the axis that `mColorAxis` points at, as the guarded
`if (mColorAxis) mColorAxis.data()->...` calls do (a non-null `mColorAxis`
is a child axis of the live axis rect). -/
def ColorScaleState.onColorAxis {G : Type} (s : ColorScaleState G)
    (f : AxisState → AxisState) : ColorScaleState G :=
  match s.colorAxis, s.axisRect with
  | some a, some ar =>
      { s with axisRect := some { ar with axes := ar.axes.set a (f (ar.axes.get a)) } }
  | _, _ => s

/-- Translation of `QCPColorScale::setDataRange`. -/
def QCPColorScale.setDataRange {G : Type} (s : ColorScaleState G)
    (dataRange : QCPRange) : ColorScaleState G × List (CSSignal G) :=
  if s.dataRange.lower ≠ dataRange.lower ∨ s.dataRange.upper ≠ dataRange.upper then
    let s1 := { s with dataRange := dataRange }
    let s2 := s1.onColorAxis (fun ax => { ax with range := dataRange })
    (s2, [.dataRangeChanged dataRange])
  else (s, [])

/-- Translation of `QCPColorScale::setDataScaleType`.  The repository's
`QCPRange::sanitizedForLogScale` is not among the given sources, so it is
passed in as an arbitrary function `sanitize`. -/
def QCPColorScale.setDataScaleType {G : Type} (sanitize : QCPRange → QCPRange)
    (s : ColorScaleState G) (scaleType : ScaleType) :
    ColorScaleState G × List (CSSignal G) :=
  if s.dataScaleType ≠ scaleType then
    let s1 := { s with dataScaleType := scaleType }
    let s2 := s1.onColorAxis (fun ax => { ax with scaleType := scaleType })
    let r :=
      if scaleType = .stLogarithmic then
        QCPColorScale.setDataRange s2 (sanitize s2.dataRange)
      else (s2, [])
    (r.1, r.2 ++ [.dataScaleTypeChanged scaleType])
  else (s, [])

/-- Translation of `QCPColorScale::setGradient`. -/
def QCPColorScale.setGradient {G : Type} [DecidableEq G]
    (s : ColorScaleState G) (gradient : G) :
    ColorScaleState G × List (CSSignal G) :=
  if s.gradient ≠ gradient then
    let s1 := { s with
                gradient := gradient,
                axisRect := s.axisRect.map
                  (fun ar => { ar with gradientImageInvalidated := true }) }
    (s1, [.gradientChanged gradient])
  else (s, [])

/-- Translation of `QCPColorScale::setBarWidth`. -/
def QCPColorScale.setBarWidth {G : Type} (s : ColorScaleState G)
    (width : ℤ) : ColorScaleState G :=
  { s with barWidth := width }

/-- Translation of `QCPColorScale::setType`.  The signal-slot connect and
disconnect calls are Qt metaobject wiring; `QCPAxisRect::setRangeDragAxes`
is modelled from the spec as plain assignment of the drag-axis pointers. -/
def QCPColorScale.setType {G : Type} (s : ColorScaleState G)
    (axisType : AxisType) : ColorScaleState G :=
  match s.axisRect with
  | none => s
  | some ar =>
    if s.axisType ≠ axisType then
      let s1 := { s with axisType := axisType }
      let tr :=
        match s.colorAxis with
        | some a =>
            ((ar.axes.get a).range, (ar.axes.get a).label,
             (ar.axes.get a).scaleLogBase,
             { ar with axes := ar.axes.set a { ar.axes.get a with label := "" } })
        | none => (⟨0, 6⟩, "", 10, ar)
      let ar2 := { tr.2.2.2 with
                   axes := tr.2.2.2.axes.mapAll (fun t ax =>
                     { ax with ticks := t == axisType,
                               tickLabels := t == axisType }) }
      let ar3 := { ar2 with
                   axes := ar2.axes.set axisType
                     { ar2.axes.get axisType with
                       range := tr.1, label := tr.2.1,
                       scaleLogBase := tr.2.2.1 } }
      let ar4 := { ar3 with
                   rangeDragHorzAxis :=
                     if axisType.orientation = .horizontal then some axisType
                     else none,
                   rangeDragVertAxis :=
                     if axisType.orientation = .vertical then some axisType
                     else none }
      { s1 with axisRect := some ar4, colorAxis := some axisType }
    else s

/-- Translation of `QCPColorScale::setRangeDrag`. -/
def QCPColorScale.setRangeDrag {G : Type} (s : ColorScaleState G)
    (enabled : Bool) : ColorScaleState G :=
  match s.axisRect with
  | none => s
  | some ar =>
    if enabled then
      { s with axisRect := some { ar with
          rangeDragFlags := OrientationFlags.single s.axisType.orientation } }
    else
      { s with axisRect := some { ar with rangeDragFlags := ⟨false, false⟩ } }

/-- Translation of `QCPColorScale::setRangeZoom`. -/
def QCPColorScale.setRangeZoom {G : Type} (s : ColorScaleState G)
    (enabled : Bool) : ColorScaleState G :=
  match s.axisRect with
  | none => s
  | some ar =>
    if enabled then
      { s with axisRect := some { ar with
          rangeZoomFlags := OrientationFlags.single s.axisType.orientation } }
    else
      { s with axisRect := some { ar with rangeZoomFlags := ⟨false, false⟩ } }

/-- Translation of the getter `QCPColorScale::rangeDrag`. -/
def QCPColorScale.rangeDrag {G : Type} (s : ColorScaleState G) : Bool :=
  match s.axisRect with
  | none => false
  | some ar =>
    match s.colorAxis with
    | none => false
    | some _ =>
      let o := s.axisType.orientation
      ar.rangeDragFlags.test o &&
        (match ar.rangeDragAxis o with
         | none => false
         | some a => a.orientation == o)

/-- Translation of the getter `QCPColorScale::rangeZoom`. -/
def QCPColorScale.rangeZoom {G : Type} (s : ColorScaleState G) : Bool :=
  match s.axisRect with
  | none => false
  | some ar =>
    match s.colorAxis with
    | none => false
    | some _ =>
      let o := s.axisType.orientation
      ar.rangeZoomFlags.test o &&
        (match ar.rangeZoomAxis o with
         | none => false
         | some a => a.orientation == o)

/-- Update phases, from `QCPLayoutElement::UpdatePhase`. -/
inductive UpdatePhase where
  | upPreparation
  | upMargins
  | upLayout
deriving DecidableEq, Repr

/-- Translation of `QCPColorScale::update`.  The base-class
`QCPLayoutElement::update` call and the margin and size bookkeeping touch
only external layout fields; in the `upLayout` phase the color scale's
layout-assigned rect (passed in as `w`, `h`) is propagated to the internal
axis rect via `setOuterRect`. -/
def QCPColorScale.update {G : Type} (s : ColorScaleState G)
    (phase : UpdatePhase) (w hgt : ℕ) : ColorScaleState G :=
  match s.axisRect with
  | none => s
  | some ar =>
    match phase with
    | .upLayout =>
        { s with axisRect := some { ar with rectWidth := w, rectHeight := hgt } }
    | _ => s

/-- Translation of the shared shape of the `QCPColorScale` mouse and wheel
event handlers: check the axis-rect pointer, then forward the event to the
internal axis rect, whose handling (external `QCPAxisRect` code) is
abstracted as a function `f` on the axis-rect state. -/
def QCPColorScale.forwardEvent {G : Type} (s : ColorScaleState G)
    (f : AxisRectState → AxisRectState) : ColorScaleState G :=
  match s.axisRect with
  | none => s
  | some ar => { s with axisRect := some (f ar) }

/-- Translation of `QCPColorScale::mousePressEvent`. -/
def QCPColorScale.mousePressEvent {G : Type} (s : ColorScaleState G)
    (f : AxisRectState → AxisRectState) : ColorScaleState G :=
  QCPColorScale.forwardEvent s f

/-- Translation of `QCPColorScale::mouseMoveEvent`. -/
def QCPColorScale.mouseMoveEvent {G : Type} (s : ColorScaleState G)
    (f : AxisRectState → AxisRectState) : ColorScaleState G :=
  QCPColorScale.forwardEvent s f

/-- Translation of `QCPColorScale::mouseReleaseEvent`. -/
def QCPColorScale.mouseReleaseEvent {G : Type} (s : ColorScaleState G)
    (f : AxisRectState → AxisRectState) : ColorScaleState G :=
  QCPColorScale.forwardEvent s f

/-- Translation of `QCPColorScale::wheelEvent`. -/
def QCPColorScale.wheelEvent {G : Type} (s : ColorScaleState G)
    (f : AxisRectState → AxisRectState) : ColorScaleState G :=
  QCPColorScale.forwardEvent s f

/-- Translation of `QCPColorScaleAxisRectPrivate::updateGradientImage`, with
the parent color scale's gradient `grad` and axis type `t` passed in; `lc`
and `col` are the `QCPColorGradient` level-count and color functions
(`colorize` writes, for each index `i`, the color of `data[i]` within the
given range; the `memcpy` loop copies scanline 0 to every other scanline). -/
def updateGradientImage {G : Type} (lc : G → ℕ) (col : G → ℚ → QCPRange → ℕ)
    (grad : G) (t : AxisType) (ar : AxisRectState) : AxisRectState :=
  if ar.rectWidth = 0 ∨ ar.rectHeight = 0 then ar
  else
    let n := lc grad
    let img : Image :=
      if t = .atBottom ∨ t = .atTop then
        let row := (List.range n).map
          (fun i => col grad (i : ℚ) (QCPRange.make 0 ((n : ℚ) - 1)))
        List.replicate ar.rectHeight row
      else
        (List.range n).map (fun y =>
          List.replicate ar.rectWidth
            (col grad ((n - 1 - y : ℕ) : ℚ) (QCPRange.make 0 ((n : ℚ) - 1))))
    { ar with gradientImage := img, gradientImageInvalidated := false }

/-- Translation of `QCPColorScaleAxisRectPrivate::draw`: regenerate the
gradient image if it is invalidated, then produce the image that is painted,
`mGradientImage.mirrored(mirrorHorz, mirrorVert)`, mirrored when the color
axis is range-reversed. -/
def axisRectPrivateDraw {G : Type} (lc : G → ℕ) (col : G → ℚ → QCPRange → ℕ)
    (s : ColorScaleState G) (ar : AxisRectState) : AxisRectState × Image :=
  let ar1 := if ar.gradientImageInvalidated then
    updateGradientImage lc col s.gradient s.axisType ar else ar
  let reversed := match s.colorAxis with
    | some a => (ar1.axes.get a).rangeReversed
    | none => false
  let mirrorHorz := reversed && (s.axisType == .atBottom || s.axisType == .atTop)
  let mirrorVert := reversed && (s.axisType == .atLeft || s.axisType == .atRight)
  (ar1, mirrorImage mirrorHorz mirrorVert ar1.gradientImage)

/-- A paint event reaching the color scale: the private axis rect's `draw`
runs on the internal axis rect when it is alive. -/
def QCPColorScale.drawOp {G : Type} (lc : G → ℕ) (col : G → ℚ → QCPRange → ℕ)
    (s : ColorScaleState G) : ColorScaleState G × Option Image :=
  match s.axisRect with
  | none => (s, none)
  | some ar =>
    let r := axisRectPrivateDraw lc col s ar
    ({ s with axisRect := some r.1 }, some r.2)

/-- Operations of the gradient-image caching scenario: calls to
`setGradient` interleaved with paint events that reach the private axis
rect's `draw`. -/
inductive CSOp (G : Type) where
  | setGradient (g : G)
  | draw
deriving DecidableEq, Repr

/-- Run a sequence of `setGradient` / `draw` operations, collecting the
images painted by the draws in order. -/
def runOps {G : Type} [DecidableEq G] (lc : G → ℕ)
    (col : G → ℚ → QCPRange → ℕ) :
    List (CSOp G) → ColorScaleState G → ColorScaleState G × List Image
  | [], s => (s, [])
  | .setGradient g :: ops, s =>
      runOps lc col ops (QCPColorScale.setGradient s g).1
  | .draw :: ops, s =>
      let r1 := QCPColorScale.drawOp lc col s
      let r2 := runOps lc col ops r1.1
      (r2.1, r1.2.toList ++ r2.2)

/-- The gradient that is current at each `draw` of an operation sequence,
starting from current gradient `g`. -/
def drawGradients {G : Type} : List (CSOp G) → G → List G
  | [], _ => []
  | .setGradient g :: ops, _ => drawGradients ops g
  | .draw :: ops, g => g :: drawGradients ops g

/-- Modelled from the spec: the state of a freshly constructed
`QCPColorScaleAxisRectPrivate`: the gradient image starts invalidated
(member initializer `mGradientImageInvalidated(true)` in the given source);
the axes carry `QCPAxis` defaults, the drag/zoom configuration carries
`QCPAxisRect` defaults, and the pixel rect is empty until the layout runs. -/
def initialAxisRect : AxisRectState :=
  { axes := ⟨AxisState.default, AxisState.default, AxisState.default,
      AxisState.default⟩
    gradientImage := []
    gradientImageInvalidated := true
    rectWidth := 0
    rectHeight := 0
    rangeDragFlags := ⟨true, true⟩
    rangeZoomFlags := ⟨true, true⟩
    rangeDragHorzAxis := some .atBottom
    rangeDragVertAxis := some .atLeft
    rangeZoomHorzAxis := some .atBottom
    rangeZoomVertAxis := some .atLeft }

/-- Translation of the `QCPColorScale` constructor: member initializers
(`mAxisType = atTop`, `mDataScaleType = stLinear`, `mBarWidth = 20`, a fresh
axis rect, null color axis, a default-constructed gradient `g0`, default
data range `(0, 0)`), then `setType(atRight)` and
`setDataRange(QCPRange(0, 6))`. -/
def QCPColorScale.construct {G : Type} (g0 : G) : ColorScaleState G :=
  let s : ColorScaleState G :=
    { axisType := .atTop
      dataRange := ⟨0, 0⟩
      dataScaleType := .stLinear
      gradient := g0
      barWidth := 20
      axisRect := some initialAxisRect
      colorAxis := none }
  let s1 := QCPColorScale.setType s .atRight
  (QCPColorScale.setDataRange s1 ⟨0, 6⟩).1

/-- A sample axis rect for concrete evaluations: default axes and drag/zoom
configuration, given rect dimensions and invalidation flag. -/
def sampleAxisRect (w hgt : ℕ) (inval : Bool) : AxisRectState :=
  { initialAxisRect with rectWidth := w, rectHeight := hgt,
                         gradientImageInvalidated := inval }

/-- A sample color scale whose internal axis rect pointer is null. -/
def sampleScaleNoRect : ColorScaleState Bool :=
  { axisType := .atRight
    dataRange := ⟨0, 6⟩
    dataScaleType := .stLinear
    gradient := false
    barWidth := 20
    axisRect := none
    colorAxis := none }

/-- A sample live color scale with a right-side color axis and the given
axis-rect dimensions and invalidation flag. -/
def sampleScale (w hgt : ℕ) (inval : Bool) : ColorScaleState Bool :=
  { sampleScaleNoRect with
    axisRect := some (sampleAxisRect w hgt inval)
    colorAxis := some .atRight }

/-- Setting a container's contents yields a sorted container (given sorted
input when the caller asserts it is already sorted). -/
theorem QCPDataContainer.sorted_set {α : Type} (k : α → ℚ)
    (newData : List α) (alreadySorted : Bool)
    (hnd : alreadySorted = true → sortedByKey k newData) :
    sortedByKey k (QCPDataContainer.set k newData alreadySorted) := by
  cases alreadySorted with
  | true => exact hnd rfl
  | false =>
      simpa [QCPDataContainer.set, sortedByKey] using
        List.sorted_insertionSort (keyLE k) newData

/-- Adding points to a sorted container keeps it sorted (given sorted input
when the caller asserts it is already sorted). -/
theorem QCPDataContainer.sorted_add {α : Type} (k : α → ℚ)
    (cont newData : List α) (alreadySorted : Bool)
    (hc : sortedByKey k cont)
    (hnd : alreadySorted = true → sortedByKey k newData) :
    sortedByKey k (QCPDataContainer.add k cont newData alreadySorted) := by
  cases alreadySorted with
  | true => exact List.Sorted.merge hc (hnd rfl)
  | false =>
      exact List.Sorted.merge hc (List.sorted_insertionSort (keyLE k) newData)

/-- Inserting a single point into a sorted container keeps it sorted. -/
theorem QCPDataContainer.sorted_addOne {α : Type} (k : α → ℚ)
    (cont : List α) (x : α) (hc : sortedByKey k cont) :
    sortedByKey k (QCPDataContainer.addOne k cont x) :=
  List.Sorted.orderedInsert x cont hc

/-- Two ranges with the same bounds are equal. -/
theorem QCPRange.ext' {r1 r2 : QCPRange} (h1 : r1.lower = r2.lower)
    (h2 : r1.upper = r2.upper) : r1 = r2 := by
  cases r1; cases r2; simp_all

/-- Mutating the color axis leaves every directly stored field of the color
scale unchanged. -/
theorem onColorAxis_preserves {G : Type} (s : ColorScaleState G)
    (f : AxisState → AxisState) :
    (s.onColorAxis f).axisType = s.axisType ∧
    (s.onColorAxis f).dataRange = s.dataRange ∧
    (s.onColorAxis f).dataScaleType = s.dataScaleType ∧
    (s.onColorAxis f).gradient = s.gradient ∧
    (s.onColorAxis f).barWidth = s.barWidth ∧
    (s.onColorAxis f).colorAxis = s.colorAxis := by
  unfold ColorScaleState.onColorAxis
  rcases s with ⟨a, b, c, d, e, arOpt, caOpt⟩
  cases caOpt <;> cases arOpt <;> simp

/-- After `setDataRange` the stored data range equals the argument (whether
or not anything changed). -/
theorem setDataRange_dataRange {G : Type} (s : ColorScaleState G)
    (r : QCPRange) : (QCPColorScale.setDataRange s r).1.dataRange = r := by
  unfold QCPColorScale.setDataRange
  split
  · exact (onColorAxis_preserves _ _).2.1.trans rfl
  · next hnot =>
      push_neg at hnot
      exact QCPRange.ext' hnot.1 hnot.2

/-- `setDataRange` does not touch the scale type, gradient, axis type, bar
width or color-axis pointer. -/
theorem setDataRange_preserves {G : Type} (s : ColorScaleState G)
    (r : QCPRange) :
    (QCPColorScale.setDataRange s r).1.dataScaleType = s.dataScaleType ∧
    (QCPColorScale.setDataRange s r).1.gradient = s.gradient ∧
    (QCPColorScale.setDataRange s r).1.axisType = s.axisType ∧
    (QCPColorScale.setDataRange s r).1.colorAxis = s.colorAxis := by
  unfold QCPColorScale.setDataRange
  split
  · have h := onColorAxis_preserves
      ({ s with dataRange := r }) (fun ax => { ax with range := r })
    exact ⟨h.2.2.1, h.2.2.2.1, h.1, h.2.2.2.2.2⟩
  · exact ⟨rfl, rfl, rfl, rfl⟩

/-- C3: under the financial-bar invariant `low ≤ open ≤ high` and
`low ≤ close ≤ high`, `QCPFinancialData::valueRange` returns
`QCPRange(low, high)` unnormalized, and this range is the smallest range
containing all four of open, high, low, close.  The invariant is a
precondition: `valueRange` itself performs no check. -/
theorem financialData_valueRange_smallest (d : QCPFinancialData)
    (h1 : d.low ≤ d.«open») (h2 : d.«open» ≤ d.high)
    (h3 : d.low ≤ d.close) (h4 : d.close ≤ d.high) :
    d.valueRange = ⟨d.low, d.high⟩ ∧
    (d.valueRange.contains d.«open» ∧ d.valueRange.contains d.high ∧
     d.valueRange.contains d.low ∧ d.valueRange.contains d.close) ∧
    (∀ r : QCPRange, r.contains d.«open» → r.contains d.high →
      r.contains d.low → r.contains d.close →
      r.lower ≤ d.valueRange.lower ∧ d.valueRange.upper ≤ r.upper) := by
  have hlh : d.low ≤ d.high := le_trans h1 h2
  have hvr : d.valueRange = ⟨d.low, d.high⟩ := by
    simp [QCPFinancialData.valueRange, QCPRange.make, hlh]
  refine ⟨hvr, ?_, ?_⟩
  · rw [hvr]
    exact ⟨⟨h1, h2⟩, ⟨hlh, le_refl _⟩, ⟨le_refl _, hlh⟩, ⟨h3, h4⟩⟩
  · intro r _ hh hl _
    rw [hvr]
    exact ⟨hl.1, hh.2⟩

/-- Witness for `financialData_valueRange_smallest` at a concrete OHLC
datum. -/
theorem financialData_valueRange_smallest_witness :
    let d : QCPFinancialData := ⟨1, 3, 5, 2, 4⟩
    d.valueRange = ⟨2, 5⟩ := by
  have h := financialData_valueRange_smallest ⟨1, 3, 5, 2, 4⟩
    (by norm_num) (by norm_num) (by norm_num) (by norm_num)
  exact h.1

/-- C4: the financial and graph data containers hold their entries sorted
in ascending key order, and every mutating operation of the owning plottable
(`setData`, `addData`, including the `alreadySorted=false` overloads, and the
single-point `addData`) preserves the sorted-by-key invariant.  When the
caller passes `alreadySorted=true` the input is assumed sorted, as the
containers do; the `alreadySorted=false` overloads need no such premise. -/
theorem container_ops_preserve_sorted :
    (∀ keys o h l c as,
      (as = true →
        sortedByKey QCPFinancialData.sortKey (zipFinancial keys o h l c)) →
      sortedByKey QCPFinancialData.sortKey
        (QCPFinancial.setData keys o h l c as)) ∧
    (∀ cont keys o h l c as,
      sortedByKey QCPFinancialData.sortKey cont →
      (as = true →
        sortedByKey QCPFinancialData.sortKey (zipFinancial keys o h l c)) →
      sortedByKey QCPFinancialData.sortKey
        (QCPFinancial.addData cont keys o h l c as)) ∧
    (∀ cont key o h l c,
      sortedByKey QCPFinancialData.sortKey cont →
      sortedByKey QCPFinancialData.sortKey
        (QCPFinancial.addDataPoint cont key o h l c)) ∧
    (∀ keys values as,
      (as = true → sortedByKey QCPGraphData.sortKey
        (List.zipWith QCPGraphData.mk keys values)) →
      sortedByKey QCPGraphData.sortKey (QCPGraph.setData keys values as)) ∧
    (∀ cont keys values as,
      sortedByKey QCPGraphData.sortKey cont →
      (as = true → sortedByKey QCPGraphData.sortKey
        (List.zipWith QCPGraphData.mk keys values)) →
      sortedByKey QCPGraphData.sortKey (QCPGraph.addData cont keys values as)) ∧
    (∀ cont key value,
      sortedByKey QCPGraphData.sortKey cont →
      sortedByKey QCPGraphData.sortKey (QCPGraph.addDataPoint cont key value)) := by
  refine ⟨?_, ?_, ?_, ?_, ?_, ?_⟩
  · intro keys o h l c as hnd
    exact QCPDataContainer.sorted_set _ _ _ hnd
  · intro cont keys o h l c as hc hnd
    exact QCPDataContainer.sorted_add _ _ _ _ hc hnd
  · intro cont key o h l c hc
    exact QCPDataContainer.sorted_addOne _ _ _ hc
  · intro keys values as hnd
    exact QCPDataContainer.sorted_set _ _ _ hnd
  · intro cont keys values as hc hnd
    exact QCPDataContainer.sorted_add _ _ _ _ hc hnd
  · intro cont key value hc
    exact QCPDataContainer.sorted_addOne _ _ _ hc

/-- Witness for `container_ops_preserve_sorted` at concrete, initially
unsorted column vectors. -/
theorem container_ops_preserve_sorted_witness :
    sortedByKey QCPFinancialData.sortKey
      (QCPFinancial.setData [3, 1] [4, 2] [5, 3] [2, 0] [4, 1] false) ∧
    sortedByKey QCPFinancialData.sortKey
      (QCPFinancial.addData [⟨2, 3, 4, 1, 2⟩] [5, 1] [0, 0] [1, 1] [0, 0]
        [1, 1] false) ∧
    sortedByKey QCPFinancialData.sortKey
      (QCPFinancial.addDataPoint [⟨1, 0, 1, 0, 1⟩, ⟨4, 0, 1, 0, 1⟩] 2 0 1 0 1) ∧
    sortedByKey QCPGraphData.sortKey (QCPGraph.setData [3, 1, 2] [9, 7, 8] false) ∧
    sortedByKey QCPGraphData.sortKey
      (QCPGraph.addData [⟨0, 5⟩, ⟨2, 6⟩] [3, 1] [4, 2] false) ∧
    sortedByKey QCPGraphData.sortKey
      (QCPGraph.addDataPoint [⟨1, 5⟩, ⟨3, 6⟩] 2 9) := by
  refine ⟨?_, ?_, ?_, ?_, ?_, ?_⟩
  · exact container_ops_preserve_sorted.1 [3, 1] [4, 2] [5, 3] [2, 0] [4, 1]
      false (by decide)
  · exact container_ops_preserve_sorted.2.1 [⟨2, 3, 4, 1, 2⟩] [5, 1] [0, 0]
      [1, 1] [0, 0] [1, 1] false (by decide) (by decide)
  · exact container_ops_preserve_sorted.2.2.1 [⟨1, 0, 1, 0, 1⟩, ⟨4, 0, 1, 0, 1⟩]
      2 0 1 0 1 (by decide)
  · exact container_ops_preserve_sorted.2.2.2.1 [3, 1, 2] [9, 7, 8] false
      (by decide)
  · exact container_ops_preserve_sorted.2.2.2.2.1 [⟨0, 5⟩, ⟨2, 6⟩] [3, 1] [4, 2]
      false (by decide) (by decide)
  · exact container_ops_preserve_sorted.2.2.2.2.2 [⟨1, 5⟩, ⟨3, 6⟩] 2 9
      (by decide)

/-- C7: for both data structs the sort key is the main key:
`sortKeyIsMainKey` returns true, `sortKey = mainKey = key`, and for every
`k` the datum `fromSortKey k` has sort key `k` and all non-key fields 0. -/
theorem sortKey_mainKey_roundTrip :
    QCPFinancialData.sortKeyIsMainKey = true ∧
    QCPGraphData.sortKeyIsMainKey = true ∧
    (∀ d : QCPFinancialData, d.sortKey = d.mainKey ∧ d.mainKey = d.key) ∧
    (∀ d : QCPGraphData, d.sortKey = d.mainKey ∧ d.mainKey = d.key) ∧
    (∀ k : ℚ, (QCPFinancialData.fromSortKey k).sortKey = k ∧
      (QCPFinancialData.fromSortKey k).«open» = 0 ∧
      (QCPFinancialData.fromSortKey k).high = 0 ∧
      (QCPFinancialData.fromSortKey k).low = 0 ∧
      (QCPFinancialData.fromSortKey k).close = 0) ∧
    (∀ k : ℚ, (QCPGraphData.fromSortKey k).sortKey = k ∧
      (QCPGraphData.fromSortKey k).value = 0) := by
  refine ⟨rfl, rfl, fun d => ⟨rfl, rfl⟩, fun d => ⟨rfl, rfl⟩, ?_, ?_⟩
  · intro k
    exact ⟨rfl, rfl, rfl, rfl, rfl⟩
  · intro k
    exact ⟨rfl, rfl⟩

/-- C6: when the axis rect's pixel rect is empty, `updateGradientImage`
returns immediately: the cached gradient image and the invalidation flag
`mGradientImageInvalidated` are left untouched, so the empty-input guard
makes the call a no-op on all state. -/
theorem updateGradientImage_emptyRect_noop {G : Type} (lc : G → ℕ)
    (col : G → ℚ → QCPRange → ℕ) (grad : G) (t : AxisType)
    (ar : AxisRectState) (hempty : ar.rectWidth = 0 ∨ ar.rectHeight = 0) :
    updateGradientImage lc col grad t ar = ar ∧
    (updateGradientImage lc col grad t ar).gradientImage = ar.gradientImage ∧
    (updateGradientImage lc col grad t ar).gradientImageInvalidated =
      ar.gradientImageInvalidated := by
  have h : updateGradientImage lc col grad t ar = ar := by
    unfold updateGradientImage
    exact if_pos hempty
  exact ⟨h, by rw [h], by rw [h]⟩

/-- Witness for `updateGradientImage_emptyRect_noop` on a freshly
constructed axis rect, whose rect is still empty and whose invalidation
flag is still set. -/
theorem updateGradientImage_emptyRect_noop_witness :
    updateGradientImage (fun _ : Bool => 3) (fun _ _ _ => 0) true .atRight
      initialAxisRect = initialAxisRect ∧
    (updateGradientImage (fun _ : Bool => 3) (fun _ _ _ => 0) true .atRight
      initialAxisRect).gradientImageInvalidated = true := by
  have h := updateGradientImage_emptyRect_noop (fun _ : Bool => 3)
    (fun _ _ _ => 0) true .atRight initialAxisRect (by decide)
  exact ⟨h.1, by rw [h.2.2]; decide⟩

/-- C5: for a non-empty rect, `updateGradientImage` produces, with gradient
level count `n`: for a bottom or top axis an image of `rect().height()`
scanlines, each of which is the colorized ramp of the values `0 .. n-1` over
the range `QCPRange(0, n-1)` (so each scanline has width `n`); otherwise an
image of `n` scanlines in which scanline `y` consists of `rect().width()`
copies of the single gradient color of level `n-1-y` (so the highest level
sits in the top scanline).  In both cases the invalidation flag is
cleared. -/
theorem updateGradientImage_content {G : Type} (lc : G → ℕ)
    (col : G → ℚ → QCPRange → ℕ) (grad : G) (t : AxisType)
    (ar : AxisRectState) (hw : ar.rectWidth ≠ 0) (hh : ar.rectHeight ≠ 0) :
    (updateGradientImage lc col grad t ar).gradientImageInvalidated = false ∧
    ((t = .atBottom ∨ t = .atTop) →
      (updateGradientImage lc col grad t ar).gradientImage.length =
        ar.rectHeight ∧
      ∀ row ∈ (updateGradientImage lc col grad t ar).gradientImage,
        row = (List.range (lc grad)).map (fun i =>
          col grad (i : ℚ) (QCPRange.make 0 ((lc grad : ℚ) - 1)))) ∧
    (¬(t = .atBottom ∨ t = .atTop) →
      (updateGradientImage lc col grad t ar).gradientImage.length = lc grad ∧
      ∀ y, y < lc grad →
        (updateGradientImage lc col grad t ar).gradientImage.getD y [] =
          List.replicate ar.rectWidth
            (col grad ((lc grad - 1 - y : ℕ) : ℚ)
              (QCPRange.make 0 ((lc grad : ℚ) - 1)))) := by
  have hne : ¬(ar.rectWidth = 0 ∨ ar.rectHeight = 0) := by
    push_neg
    exact ⟨hw, hh⟩
  refine ⟨?_, ?_, ?_⟩
  · unfold updateGradientImage
    rw [if_neg hne]
  · intro hor
    unfold updateGradientImage
    rw [if_neg hne]
    simp only [if_pos hor]
    constructor
    · simp
    · intro row hrow
      exact List.eq_of_mem_replicate hrow
  · intro hver
    unfold updateGradientImage
    rw [if_neg hne]
    simp only [if_neg hver]
    constructor
    · simp
    · intro y hy
      simp [List.getD_eq_getElem?_getD, List.getElem?_map, List.getElem?_range,
        hy]

/-- Witness for `updateGradientImage_content`: a vertical (left-axis) rect
of width 4 and height 3 with a two-level gradient. -/
theorem updateGradientImage_content_witness :
    (updateGradientImage (fun _ : Bool => 2) (fun _ q _ => q.num.toNat + 5)
      true .atLeft (sampleAxisRect 4 3 true)).gradientImage.getD 0 [] =
      List.replicate 4 6 ∧
    (updateGradientImage (fun _ : Bool => 2) (fun _ q _ => q.num.toNat + 5)
      true .atLeft (sampleAxisRect 4 3 true)).gradientImageInvalidated =
      false := by
  have h := updateGradientImage_content (fun _ : Bool => 2)
    (fun _ q _ => q.num.toNat + 5) true .atLeft (sampleAxisRect 4 3 true)
    (by decide) (by decide)
  have h0 := (h.2.2 (by decide)).2 0 (by decide)
  refine ⟨?_, h.1⟩
  rw [h0]
  decide

/-- C2: every `QCPColorScale` operation needing the internal axis rect
guards against a null pointer with no effect beyond the logged warning: with
a null axis rect the getters `rangeDrag()` and `rangeZoom()` return false
(likewise with a null color axis), and `setType`, `setRangeDrag`,
`setRangeZoom`, `update` and the four mouse/wheel event handlers return with
every stored field of the color scale unchanged. -/
theorem colorScale_null_guards {G : Type} [DecidableEq G] :
    (∀ s : ColorScaleState G, s.axisRect = none →
      QCPColorScale.rangeDrag s = false ∧ QCPColorScale.rangeZoom s = false) ∧
    (∀ s : ColorScaleState G, s.colorAxis = none →
      QCPColorScale.rangeDrag s = false ∧ QCPColorScale.rangeZoom s = false) ∧
    (∀ s : ColorScaleState G, s.axisRect = none →
      (∀ t, QCPColorScale.setType s t = s) ∧
      (∀ b, QCPColorScale.setRangeDrag s b = s) ∧
      (∀ b, QCPColorScale.setRangeZoom s b = s) ∧
      (∀ ph w hgt, QCPColorScale.update s ph w hgt = s) ∧
      (∀ f, QCPColorScale.mousePressEvent s f = s) ∧
      (∀ f, QCPColorScale.mouseMoveEvent s f = s) ∧
      (∀ f, QCPColorScale.mouseReleaseEvent s f = s) ∧
      (∀ f, QCPColorScale.wheelEvent s f = s)) := by
  refine ⟨?_, ?_, ?_⟩
  · intro s har
    constructor
    · unfold QCPColorScale.rangeDrag
      rw [har]
    · unfold QCPColorScale.rangeZoom
      rw [har]
  · intro s hca
    constructor
    · unfold QCPColorScale.rangeDrag
      rw [hca]
      cases s.axisRect <;> rfl
    · unfold QCPColorScale.rangeZoom
      rw [hca]
      cases s.axisRect <;> rfl
  · intro s har
    refine ⟨?_, ?_, ?_, ?_, ?_, ?_, ?_, ?_⟩
    · intro t
      unfold QCPColorScale.setType
      rw [har]
    · intro b
      unfold QCPColorScale.setRangeDrag
      rw [har]
    · intro b
      unfold QCPColorScale.setRangeZoom
      rw [har]
    · intro ph w hgt
      unfold QCPColorScale.update
      rw [har]
    · intro f
      unfold QCPColorScale.mousePressEvent QCPColorScale.forwardEvent
      rw [har]
    · intro f
      unfold QCPColorScale.mouseMoveEvent QCPColorScale.forwardEvent
      rw [har]
    · intro f
      unfold QCPColorScale.mouseReleaseEvent QCPColorScale.forwardEvent
      rw [har]
    · intro f
      unfold QCPColorScale.wheelEvent QCPColorScale.forwardEvent
      rw [har]

/-- Witness for `colorScale_null_guards` on a concrete color scale whose
axis rect pointer is null. -/
theorem colorScale_null_guards_witness :
    QCPColorScale.rangeDrag sampleScaleNoRect = false ∧
    QCPColorScale.rangeZoom sampleScaleNoRect = false ∧
    QCPColorScale.setType sampleScaleNoRect .atBottom = sampleScaleNoRect ∧
    QCPColorScale.setRangeDrag sampleScaleNoRect true = sampleScaleNoRect ∧
    QCPColorScale.setRangeZoom sampleScaleNoRect true = sampleScaleNoRect ∧
    QCPColorScale.update sampleScaleNoRect .upLayout 7 9 = sampleScaleNoRect ∧
    QCPColorScale.mousePressEvent sampleScaleNoRect id = sampleScaleNoRect ∧
    QCPColorScale.mouseMoveEvent sampleScaleNoRect id = sampleScaleNoRect ∧
    QCPColorScale.mouseReleaseEvent sampleScaleNoRect id = sampleScaleNoRect ∧
    QCPColorScale.wheelEvent sampleScaleNoRect id = sampleScaleNoRect := by
  have h1 := (colorScale_null_guards (G := Bool)).1 sampleScaleNoRect rfl
  have h3 := (colorScale_null_guards (G := Bool)).2.2 sampleScaleNoRect rfl
  exact ⟨h1.1, h1.2, h3.1 _, h3.2.1 _, h3.2.2.1 _, h3.2.2.2.1 _ _ _,
    h3.2.2.2.2.1 _, h3.2.2.2.2.2.1 _, h3.2.2.2.2.2.2.1 _, h3.2.2.2.2.2.2.2 _⟩

/-- When the scale type actually changes, `setDataScaleType` stores the new
scale type, stores the (sanitized, when switching to logarithmic) data
range, and ends its signal list with `dataScaleTypeChanged`. -/
theorem setDataScaleType_result {G : Type} (sanitize : QCPRange → QCPRange)
    (s : ColorScaleState G) (t : ScaleType) (hc : s.dataScaleType ≠ t) :
    (QCPColorScale.setDataScaleType sanitize s t).1.dataScaleType = t ∧
    (QCPColorScale.setDataScaleType sanitize s t).1.dataRange =
      (if t = .stLogarithmic then sanitize s.dataRange else s.dataRange) ∧
    ∃ pre, (QCPColorScale.setDataScaleType sanitize s t).2 =
      pre ++ [CSSignal.dataScaleTypeChanged t] := by
  unfold QCPColorScale.setDataScaleType
  rw [if_pos hc]
  by_cases hlog : t = ScaleType.stLogarithmic
  · rw [if_pos hlog]
    dsimp only
    rw [if_pos hlog]
    refine ⟨?_, ?_, _, rfl⟩
    · exact (setDataRange_preserves _ _).1.trans (onColorAxis_preserves _ _).2.2.1
    · rw [setDataRange_dataRange, (onColorAxis_preserves _ _).2.1]
  · rw [if_neg hlog]
    dsimp only
    rw [if_neg hlog]
    exact ⟨(onColorAxis_preserves _ _).2.2.1, (onColorAxis_preserves _ _).2.1,
      _, rfl⟩

/-- C8: `setDataRange`, `setDataScaleType` and `setGradient` change state
and emit their respective changed signal exactly when the argument differs
from the stored value (for `setDataRange`, differs in lower or upper
bound); calling any of them again with the same argument is a complete
no-op. -/
theorem setters_emit_iff_changed {G : Type} [DecidableEq G] :
    (∀ (s : ColorScaleState G) (r : QCPRange),
      (QCPColorScale.setDataRange s r = (s, []) ↔
        (s.dataRange.lower = r.lower ∧ s.dataRange.upper = r.upper)) ∧
      ((s.dataRange.lower ≠ r.lower ∨ s.dataRange.upper ≠ r.upper) →
        (QCPColorScale.setDataRange s r).1.dataRange = r ∧
        (QCPColorScale.setDataRange s r).2 = [.dataRangeChanged r] ∧
        (QCPColorScale.setDataRange s r).1 ≠ s) ∧
      QCPColorScale.setDataRange (QCPColorScale.setDataRange s r).1 r =
        ((QCPColorScale.setDataRange s r).1, [])) ∧
    (∀ (sanitize : QCPRange → QCPRange) (s : ColorScaleState G)
        (t : ScaleType),
      (QCPColorScale.setDataScaleType sanitize s t = (s, []) ↔
        s.dataScaleType = t) ∧
      (s.dataScaleType ≠ t →
        (QCPColorScale.setDataScaleType sanitize s t).1.dataScaleType = t ∧
        CSSignal.dataScaleTypeChanged t ∈
          (QCPColorScale.setDataScaleType sanitize s t).2 ∧
        (QCPColorScale.setDataScaleType sanitize s t).1 ≠ s) ∧
      QCPColorScale.setDataScaleType sanitize
          (QCPColorScale.setDataScaleType sanitize s t).1 t =
        ((QCPColorScale.setDataScaleType sanitize s t).1, [])) ∧
    (∀ (s : ColorScaleState G) (g : G),
      (QCPColorScale.setGradient s g = (s, []) ↔ s.gradient = g) ∧
      (s.gradient ≠ g →
        (QCPColorScale.setGradient s g).1.gradient = g ∧
        (QCPColorScale.setGradient s g).2 = [.gradientChanged g] ∧
        (QCPColorScale.setGradient s g).1 ≠ s) ∧
      QCPColorScale.setGradient (QCPColorScale.setGradient s g).1 g =
        ((QCPColorScale.setGradient s g).1, [])) := by
  refine ⟨?_, ?_, ?_⟩
  · intro s r
    refine ⟨⟨?_, ?_⟩, ?_, ?_⟩
    · intro heq
      by_cases hc : s.dataRange.lower ≠ r.lower ∨ s.dataRange.upper ≠ r.upper
      · exfalso
        unfold QCPColorScale.setDataRange at heq
        rw [if_pos hc] at heq
        simpa using congrArg Prod.snd heq
      · push_neg at hc
        exact hc
    · intro ⟨h1, h2⟩
      unfold QCPColorScale.setDataRange
      rw [if_neg (by push_neg; exact ⟨h1, h2⟩)]
    · intro hc
      refine ⟨setDataRange_dataRange s r, ?_, ?_⟩
      · unfold QCPColorScale.setDataRange
        rw [if_pos hc]
      · intro heq
        have hdr : s.dataRange = r := by
          rw [← heq, setDataRange_dataRange]
        rcases hc with h' | h' <;> exact h' (by rw [hdr])
    · have key : ∀ s' : ColorScaleState G, s'.dataRange = r →
          QCPColorScale.setDataRange s' r = (s', []) := by
        intro s' h
        unfold QCPColorScale.setDataRange
        rw [if_neg (by push_neg; rw [h]; exact ⟨rfl, rfl⟩)]
      exact key _ (setDataRange_dataRange s r)
  · intro sanitize s t
    refine ⟨⟨?_, ?_⟩, ?_, ?_⟩
    · intro heq
      by_cases hc : s.dataScaleType ≠ t
      · exfalso
        obtain ⟨-, -, pre, hpre⟩ := setDataScaleType_result sanitize s t hc
        rw [heq] at hpre
        simp at hpre
      · push_neg at hc
        exact hc
    · intro ht
      unfold QCPColorScale.setDataScaleType
      rw [if_neg (fun hne => hne ht)]
    · intro hc
      obtain ⟨h1, -, pre, hpre⟩ := setDataScaleType_result sanitize s t hc
      refine ⟨h1, ?_, ?_⟩
      · rw [hpre]
        simp
      · intro heq
        exact hc ((congrArg ColorScaleState.dataScaleType heq) ▸ h1)
    · have key : ∀ s' : ColorScaleState G, s'.dataScaleType = t →
          QCPColorScale.setDataScaleType sanitize s' t = (s', []) := by
        intro s' h
        unfold QCPColorScale.setDataScaleType
        rw [if_neg (fun hne => hne h)]
      by_cases hc : s.dataScaleType ≠ t
      · exact key _ (setDataScaleType_result sanitize s t hc).1
      · push_neg at hc
        rw [key s hc]
        exact key s hc
  · intro s g
    refine ⟨⟨?_, ?_⟩, ?_, ?_⟩
    · intro heq
      by_cases hc : s.gradient ≠ g
      · exfalso
        unfold QCPColorScale.setGradient at heq
        rw [if_pos hc] at heq
        simpa using congrArg Prod.snd heq
      · push_neg at hc
        exact hc
    · intro hg
      unfold QCPColorScale.setGradient
      rw [if_neg (fun hne => hne hg)]
    · intro hc
      refine ⟨?_, ?_, ?_⟩
      · unfold QCPColorScale.setGradient
        rw [if_pos hc]
      · unfold QCPColorScale.setGradient
        rw [if_pos hc]
      · intro heq
        apply hc
        have := congrArg ColorScaleState.gradient heq
        rw [← this]
        unfold QCPColorScale.setGradient
        rw [if_pos hc]
    · have key : ∀ s' : ColorScaleState G, s'.gradient = g →
          QCPColorScale.setGradient s' g = (s', []) := by
        intro s' h
        unfold QCPColorScale.setGradient
        rw [if_neg (fun hne => hne h)]
      by_cases hc : s.gradient ≠ g
      · have h1 : (QCPColorScale.setGradient s g).1.gradient = g := by
          unfold QCPColorScale.setGradient
          rw [if_pos hc]
        exact key _ h1
      · push_neg at hc
        rw [key s hc]
        exact key s hc

/-- Witness for `setters_emit_iff_changed` on a concrete color scale: a
changed data range, scale type and gradient each take effect and emit, and
a repeated `setDataRange` is a no-op. -/
theorem setters_emit_iff_changed_witness :
    (QCPColorScale.setDataRange (sampleScale 4 3 false) ⟨1, 2⟩).1.dataRange =
      ⟨1, 2⟩ ∧
    (QCPColorScale.setDataRange (sampleScale 4 3 false) ⟨1, 2⟩).2 =
      [.dataRangeChanged ⟨1, 2⟩] ∧
    QCPColorScale.setDataRange (sampleScale 4 3 false) ⟨0, 6⟩ =
      (sampleScale 4 3 false, []) ∧
    (QCPColorScale.setDataScaleType (fun r => r) (sampleScale 4 3 false)
      .stLogarithmic).1.dataScaleType = .stLogarithmic ∧
    CSSignal.dataScaleTypeChanged .stLogarithmic ∈
      (QCPColorScale.setDataScaleType (fun r => r) (sampleScale 4 3 false)
        .stLogarithmic).2 ∧
    (QCPColorScale.setGradient (sampleScale 4 3 false) true).1.gradient =
      true ∧
    (QCPColorScale.setGradient (sampleScale 4 3 false) true).2 =
      [.gradientChanged true] := by
  have hr := (setters_emit_iff_changed.1 (sampleScale 4 3 false) ⟨1, 2⟩).2.1
    (by decide)
  have hr0 := (setters_emit_iff_changed.1 (sampleScale 4 3 false)
    ⟨0, 6⟩).1.mpr (by decide)
  have hs := (setters_emit_iff_changed.2.1 (fun r => r) (sampleScale 4 3 false)
    .stLogarithmic).2.1 (by decide)
  have hg := (setters_emit_iff_changed.2.2 (sampleScale 4 3 false) true).2.1
    (by decide)
  exact ⟨hr.1, hr.2.1, hr0, hs.1, hs.2.1, hg.1, hg.2.1⟩

/-- C10: whenever `setDataScaleType` switches the scale type to logarithmic,
the stored data range is immediately replaced by its log-sanitized version
(`sanitizedForLogScale`, supplied as `sanitize` since it is not among the
given sources), while switching to linear leaves the data range untouched. -/
theorem setDataScaleType_log_sanitizes {G : Type} :
    (∀ (sanitize : QCPRange → QCPRange) (s : ColorScaleState G),
      s.dataScaleType ≠ .stLogarithmic →
      (QCPColorScale.setDataScaleType sanitize s .stLogarithmic).1.dataRange =
        sanitize s.dataRange) ∧
    (∀ (sanitize : QCPRange → QCPRange) (s : ColorScaleState G),
      (QCPColorScale.setDataScaleType sanitize s .stLinear).1.dataRange =
        s.dataRange) := by
  constructor
  · intro sanitize s hc
    have h := (setDataScaleType_result sanitize s .stLogarithmic hc).2.1
    rwa [if_pos rfl] at h
  · intro sanitize s
    by_cases hc : s.dataScaleType ≠ ScaleType.stLinear
    · have h := (setDataScaleType_result sanitize s .stLinear hc).2.1
      rwa [if_neg (by intro h'; cases h')] at h
    · push_neg at hc
      have h1 : QCPColorScale.setDataScaleType sanitize s .stLinear =
          (s, []) := by
        unfold QCPColorScale.setDataScaleType
        rw [if_neg (fun hne => hne hc)]
      rw [h1]

/-- Witness for `setDataScaleType_log_sanitizes`: switching a linear scale
to logarithmic replaces the stored range by the sanitized one. -/
theorem setDataScaleType_log_sanitizes_witness :
    (QCPColorScale.setDataScaleType (fun _ => ⟨1, 100⟩) (sampleScale 4 3 false)
      .stLogarithmic).1.dataRange = ⟨1, 100⟩ ∧
    (QCPColorScale.setDataScaleType (fun _ => ⟨1, 100⟩) (sampleScale 4 3 false)
      .stLinear).1.dataRange = ⟨0, 6⟩ := by
  constructor
  · exact (setDataScaleType_log_sanitizes (G := Bool)).1 (fun _ => ⟨1, 100⟩)
      (sampleScale 4 3 false) (by decide)
  · have h := (setDataScaleType_log_sanitizes (G := Bool)).2 (fun _ => ⟨1, 100⟩)
      (sampleScale 4 3 false)
    rw [h]
    decide

/-- Reading an axis after replacing one: the replaced side yields the new
axis, other sides are untouched. -/
theorem AxesQuad.get_set (q : AxesQuad) (t : AxisType) (a : AxisState)
    (t' : AxisType) :
    (q.set t a).get t' = if t' = t then a else q.get t' := by
  cases t <;> cases t' <;> simp [AxesQuad.get, AxesQuad.set]

/-- Reading an axis after a side-dependent update of all four. -/
theorem AxesQuad.get_mapAll (q : AxesQuad) (f : AxisType → AxisState → AxisState)
    (t : AxisType) : (q.mapAll f).get t = f t (q.get t) := by
  cases t <;> rfl

/-- C9: after `setType(t)` with `t` different from the current axis type,
exactly one of the four axes of the internal axis rect — the one at side
`t` — has ticks and tick labels enabled, the color-axis pointer refers to
that axis, and the new color axis carries over the previous color axis's
range, label and scale log base (or the defaults range `(0, 6)`, empty label
and log base 10 when there was no previous color axis); and this invariant
holds after the constructor, whose body ends with `setType(atRight)`
followed by `setDataRange(QCPRange(0, 6))`. -/
theorem setType_invariant {G : Type} :
    (∀ (s : ColorScaleState G) (ar : AxisRectState) (t : AxisType),
      s.axisRect = some ar → s.axisType ≠ t →
      ∃ ar2, (QCPColorScale.setType s t).axisRect = some ar2 ∧
        (QCPColorScale.setType s t).colorAxis = some t ∧
        (∀ a, ((ar2.axes.get a).ticks = true ↔ a = t) ∧
              ((ar2.axes.get a).tickLabels = true ↔ a = t)) ∧
        (ar2.axes.get t).range =
          (match s.colorAxis with
           | some a => (ar.axes.get a).range
           | none => ⟨0, 6⟩) ∧
        (ar2.axes.get t).label =
          (match s.colorAxis with
           | some a => (ar.axes.get a).label
           | none => "") ∧
        (ar2.axes.get t).scaleLogBase =
          (match s.colorAxis with
           | some a => (ar.axes.get a).scaleLogBase
           | none => 10)) ∧
    (∀ g0 : G,
      (QCPColorScale.construct g0).colorAxis = some .atRight ∧
      ∃ ar2, (QCPColorScale.construct g0).axisRect = some ar2 ∧
        (∀ a, ((ar2.axes.get a).ticks = true ↔ a = .atRight) ∧
              ((ar2.axes.get a).tickLabels = true ↔ a = .atRight)) ∧
        (ar2.axes.get .atRight).range = ⟨0, 6⟩ ∧
        (ar2.axes.get .atRight).label = "" ∧
        (ar2.axes.get .atRight).scaleLogBase = 10) := by
  constructor
  · intro s ar t har hne
    unfold QCPColorScale.setType
    rw [har]
    dsimp only
    rw [if_pos hne]
    rcases hca : s.colorAxis with _ | a
    · dsimp only
      refine ⟨_, rfl, rfl, ?_, ?_, ?_, ?_⟩
      · intro a
        rw [AxesQuad.get_set]
        by_cases hat : a = t
        · subst hat
          rw [if_pos rfl]
          constructor <;>
            · rw [AxesQuad.get_mapAll]
              simp
        · rw [if_neg hat]
          rw [AxesQuad.get_mapAll]
          simp [hat]
      · rw [AxesQuad.get_set, if_pos rfl]
      · rw [AxesQuad.get_set, if_pos rfl]
      · rw [AxesQuad.get_set, if_pos rfl]
    · dsimp only
      refine ⟨_, rfl, rfl, ?_, ?_, ?_, ?_⟩
      · intro a'
        rw [AxesQuad.get_set]
        by_cases hat : a' = t
        · subst hat
          rw [if_pos rfl]
          constructor <;>
            · rw [AxesQuad.get_mapAll]
              simp
        · rw [if_neg hat]
          rw [AxesQuad.get_mapAll]
          simp [hat]
      · rw [AxesQuad.get_set, if_pos rfl]
      · rw [AxesQuad.get_set, if_pos rfl]
      · rw [AxesQuad.get_set, if_pos rfl]
  · intro g0
    refine ⟨rfl, _, rfl, ?_, rfl, rfl, rfl⟩
    intro a
    cases a <;> constructor <;> simp [QCPColorScale.construct,
      QCPColorScale.setType, QCPColorScale.setDataRange,
      ColorScaleState.onColorAxis, initialAxisRect, AxisState.default,
      AxesQuad.get, AxesQuad.set, AxesQuad.mapAll]

/-- Witness for `setType_invariant`: moving a right color scale to the
bottom side enables ticks exactly on the bottom axis and carries the old
right axis's range `(0, 5)` over to it. -/
theorem setType_invariant_witness :
    (QCPColorScale.setType (sampleScale 4 3 false) .atBottom).colorAxis =
      some .atBottom ∧
    ∃ ar2, (QCPColorScale.setType (sampleScale 4 3 false) .atBottom).axisRect =
      some ar2 ∧
      (ar2.axes.get .atBottom).ticks = true ∧
      (ar2.axes.get .atTop).ticks = false ∧
      (ar2.axes.get .atBottom).range = ⟨0, 5⟩ := by
  obtain ⟨ar2, h1, h2, h3, h4, h5, h6⟩ := (setType_invariant (G := Bool)).1
    (sampleScale 4 3 false) (sampleAxisRect 4 3 false) .atBottom rfl
    (by decide)
  refine ⟨h2, ar2, h1, (h3 .atBottom).1.mpr rfl, ?_, ?_⟩
  · cases hb : (ar2.axes.get AxisType.atTop).ticks
    · rfl
    · cases (h3 .atTop).1.mp hb
  · exact h4

/-- `updateGradientImage` never touches the rect dimensions or the axes. -/
theorem updateGradientImage_preserves {G : Type} (lc : G → ℕ)
    (col : G → ℚ → QCPRange → ℕ) (grad : G) (t : AxisType)
    (ar : AxisRectState) :
    (updateGradientImage lc col grad t ar).rectWidth = ar.rectWidth ∧
    (updateGradientImage lc col grad t ar).rectHeight = ar.rectHeight ∧
    (updateGradientImage lc col grad t ar).axes = ar.axes := by
  unfold updateGradientImage
  split <;> exact ⟨rfl, rfl, rfl⟩

/-- On a non-empty rect, `updateGradientImage` clears the invalidation
flag. -/
theorem updateGradientImage_clears_flag {G : Type} (lc : G → ℕ)
    (col : G → ℚ → QCPRange → ℕ) (grad : G) (t : AxisType)
    (ar : AxisRectState) (hnz : ¬(ar.rectWidth = 0 ∨ ar.rectHeight = 0)) :
    (updateGradientImage lc col grad t ar).gradientImageInvalidated = false := by
  unfold updateGradientImage
  rw [if_neg hnz]

/-- The gradient image generated by `updateGradientImage` depends on the
axis rect only through its rect dimensions. -/
theorem updateGradientImage_image_congr {G : Type} (lc : G → ℕ)
    (col : G → ℚ → QCPRange → ℕ) (grad : G) (t : AxisType)
    (ar ar' : AxisRectState) (hw : ar.rectWidth = ar'.rectWidth)
    (hh : ar.rectHeight = ar'.rectHeight)
    (hnz : ¬(ar.rectWidth = 0 ∨ ar.rectHeight = 0)) :
    (updateGradientImage lc col grad t ar).gradientImage =
      (updateGradientImage lc col grad t ar').gradientImage := by
  have hnz' : ¬(ar'.rectWidth = 0 ∨ ar'.rectHeight = 0) := by
    rw [← hw, ← hh]
    exact hnz
  unfold updateGradientImage
  rw [if_neg hnz, if_neg hnz']
  dsimp only
  rw [hw, hh]

/-- Mirroring along no axis is the identity. -/
theorem mirrorImage_id (img : Image) : mirrorImage false false img = img := rfl

/-- Fields of the state after a gradient change through `setGradient`. -/
theorem setGradient_changed_fields {G : Type} [DecidableEq G]
    (s : ColorScaleState G) (g : G) (hg : s.gradient ≠ g) :
    (QCPColorScale.setGradient s g).1.gradient = g ∧
    (QCPColorScale.setGradient s g).1.axisType = s.axisType ∧
    (QCPColorScale.setGradient s g).1.colorAxis = s.colorAxis ∧
    (QCPColorScale.setGradient s g).1.axisRect =
      s.axisRect.map (fun ar => { ar with gradientImageInvalidated := true }) := by
  unfold QCPColorScale.setGradient
  rw [if_pos hg]
  exact ⟨rfl, rfl, rfl, rfl⟩

/-- Shape of `drawOp` on a live axis rect whose color axis is not
range-reversed: the regenerated-or-kept image is painted unmirrored and
stored. -/
theorem drawOp_spec {G : Type} [DecidableEq G] (lc : G → ℕ)
    (col : G → ℚ → QCPRange → ℕ) (s : ColorScaleState G) (ar : AxisRectState)
    (har : s.axisRect = some ar)
    (hrev : ∀ a, s.colorAxis = some a → (ar.axes.get a).rangeReversed = false) :
    QCPColorScale.drawOp lc col s =
      ({ s with axisRect := some (if ar.gradientImageInvalidated then
           updateGradientImage lc col s.gradient s.axisType ar else ar) },
       some (if ar.gradientImageInvalidated then
           updateGradientImage lc col s.gradient s.axisType ar
         else ar).gradientImage) := by
  have hax : (if ar.gradientImageInvalidated then
      updateGradientImage lc col s.gradient s.axisType ar else ar).axes =
      ar.axes := by
    split
    · exact (updateGradientImage_preserves lc col s.gradient s.axisType ar).2.2
    · rfl
  unfold QCPColorScale.drawOp axisRectPrivateDraw
  rw [har]
  dsimp only
  rcases hca : s.colorAxis with _ | a
  · dsimp only
    rw [Bool.false_and, Bool.false_and, mirrorImage_id]
  · dsimp only
    rw [hax, hrev a hca, Bool.false_and, Bool.false_and, mirrorImage_id]

/-- Core of the gradient-image cache argument: starting from a state whose
cache is coherent (a cleared flag means the stored image is the one
generated from the stored gradient), with a live non-empty axis rect and an
unreversed color axis, every image painted by a sequence of `setGradient`
and `draw` calls is the one generated from the gradient current at that
draw. -/
theorem runOps_images {G : Type} [DecidableEq G] (lc : G → ℕ)
    (col : G → ℚ → QCPRange → ℕ) :
    ∀ (ops : List (CSOp G)) (s : ColorScaleState G) (ar : AxisRectState),
      s.axisRect = some ar →
      ¬(ar.rectWidth = 0 ∨ ar.rectHeight = 0) →
      (∀ a, s.colorAxis = some a → (ar.axes.get a).rangeReversed = false) →
      (ar.gradientImageInvalidated = false →
        ar.gradientImage =
          (updateGradientImage lc col s.gradient s.axisType ar).gradientImage) →
      (runOps lc col ops s).2 =
        (drawGradients ops s.gradient).map (fun g =>
          (updateGradientImage lc col g s.axisType ar).gradientImage) := by
  intro ops
  induction ops with
  | nil => intro s ar _ _ _ _; rfl
  | cons op ops ih =>
    intro s ar har hnz hrev hinv
    cases op with
    | setGradient g =>
      by_cases hg : s.gradient ≠ g
      · have hfields := setGradient_changed_fields s g hg
        have har2 : (QCPColorScale.setGradient s g).1.axisRect =
            some ({ ar with gradientImageInvalidated := true }) := by
          rw [hfields.2.2.2, har]
          rfl
        have h2 := ih (QCPColorScale.setGradient s g).1
          ({ ar with gradientImageInvalidated := true }) har2 hnz
          (by intro a hca
              apply hrev a
              rw [← hfields.2.2.1]
              exact hca)
          (by intro hfl; cases hfl)
        show (runOps lc col ops (QCPColorScale.setGradient s g).1).2 = _
        rw [h2, hfields.1, hfields.2.1]
        show (drawGradients ops g).map _ = (drawGradients ops g).map _
        apply List.map_congr_left
        intro x _
        exact updateGradientImage_image_congr lc col x s.axisType
          ({ ar with gradientImageInvalidated := true }) ar rfl rfl hnz
      · push_neg at hg
        have hdef : QCPColorScale.setGradient s g = (s, []) := by
          unfold QCPColorScale.setGradient
          rw [if_neg (fun hne => hne hg)]
        show (runOps lc col ops (QCPColorScale.setGradient s g).1).2 = _
        rw [hdef]
        show (runOps lc col ops s).2 = (drawGradients ops g).map _
        rw [← hg]
        exact ih s ar har hnz hrev hinv
    | draw =>
      have hds := drawOp_spec lc col s ar har hrev
      show ((QCPColorScale.drawOp lc col s).2.toList ++
        (runOps lc col ops (QCPColorScale.drawOp lc col s).1).2) = _
      rw [hds]
      by_cases hb : ar.gradientImageInvalidated
      · rw [if_pos hb]
        have hupd := updateGradientImage_preserves lc col s.gradient
          s.axisType ar
        have hnz1 : ¬((updateGradientImage lc col s.gradient s.axisType
            ar).rectWidth = 0 ∨
            (updateGradientImage lc col s.gradient s.axisType ar).rectHeight
              = 0) := by
          rw [hupd.1, hupd.2.1]
          exact hnz
        have h2 := ih ({ s with axisRect := some (updateGradientImage lc col
            s.gradient s.axisType ar) })
          (updateGradientImage lc col s.gradient s.axisType ar) rfl hnz1
          (by intro a hca
              rw [hupd.2.2]
              exact hrev a hca)
          (by intro _
              exact updateGradientImage_image_congr lc col s.gradient
                s.axisType ar (updateGradientImage lc col s.gradient
                  s.axisType ar) hupd.1.symm hupd.2.1.symm hnz)
        dsimp only at h2
        dsimp only
        rw [h2]
        show _ :: (drawGradients ops s.gradient).map _ =
          _ :: (drawGradients ops s.gradient).map _
        congr 1
        apply List.map_congr_left
        intro x _
        exact updateGradientImage_image_congr lc col x s.axisType
          (updateGradientImage lc col s.gradient s.axisType ar) ar
          hupd.1 hupd.2.1 hnz1
      · rw [if_neg hb]
        have hflag : ar.gradientImageInvalidated = false := by
          cases h' : ar.gradientImageInvalidated
          · rfl
          · exact absurd h' hb
        have hsame : ({ s with axisRect := some ar } : ColorScaleState G)
            = s := by
          rcases s with ⟨a1, a2, a3, a4, a5, a6, a7⟩
          cases har
          rfl
        rw [hsame]
        have h2 := ih s ar har hnz hrev hinv
        dsimp only
        rw [h2]
        show _ :: (drawGradients ops s.gradient).map _ =
          _ :: (drawGradients ops s.gradient).map _
        congr 1
        exact hinv hflag

/-- C1: the gradient image of the color-scale axis rect works as a cache.
`setGradient(g)` updates the stored gradient and sets the invalidation flag
exactly when `g` differs from the stored gradient (and is a complete no-op
otherwise); `draw` regenerates the gradient image via `updateGradientImage`
exactly when the flag is set, and a successful (non-empty-rect) regeneration
clears the flag; consequently, for every sequence of `setGradient` and
`draw` calls on a live, non-empty, unreversed color scale with a coherent
cache, each image drawn is the one generated from the gradient current at
that draw. -/
theorem gradientImage_cache_correct {G : Type} [DecidableEq G] (lc : G → ℕ)
    (col : G → ℚ → QCPRange → ℕ) :
    (∀ (s : ColorScaleState G) (ar : AxisRectState) (g : G),
      s.axisRect = some ar →
      (s.gradient ≠ g →
        (QCPColorScale.setGradient s g).1.gradient = g ∧
        (QCPColorScale.setGradient s g).1.axisRect =
          some ({ ar with gradientImageInvalidated := true })) ∧
      (s.gradient = g → QCPColorScale.setGradient s g = (s, []))) ∧
    (∀ (s : ColorScaleState G) (ar : AxisRectState),
      s.axisRect = some ar →
      (ar.gradientImageInvalidated = false →
        (QCPColorScale.drawOp lc col s).1 = s) ∧
      (ar.gradientImageInvalidated = true →
        (QCPColorScale.drawOp lc col s).1.axisRect =
          some (updateGradientImage lc col s.gradient s.axisType ar) ∧
        (¬(ar.rectWidth = 0 ∨ ar.rectHeight = 0) →
          (updateGradientImage lc col s.gradient s.axisType
            ar).gradientImageInvalidated = false))) ∧
    (∀ (ops : List (CSOp G)) (s : ColorScaleState G) (ar : AxisRectState),
      s.axisRect = some ar →
      ¬(ar.rectWidth = 0 ∨ ar.rectHeight = 0) →
      (∀ a, s.colorAxis = some a → (ar.axes.get a).rangeReversed = false) →
      (ar.gradientImageInvalidated = false →
        ar.gradientImage =
          (updateGradientImage lc col s.gradient s.axisType
            ar).gradientImage) →
      (runOps lc col ops s).2 =
        (drawGradients ops s.gradient).map (fun g =>
          (updateGradientImage lc col g s.axisType ar).gradientImage)) := by
  refine ⟨?_, ?_, runOps_images lc col⟩
  · intro s ar g har
    constructor
    · intro hg
      have hfields := setGradient_changed_fields s g hg
      refine ⟨hfields.1, ?_⟩
      rw [hfields.2.2.2, har]
      rfl
    · intro hg
      unfold QCPColorScale.setGradient
      rw [if_neg (fun hne => hne hg)]
  · intro s ar har
    constructor
    · intro hflag
      rcases s with ⟨a1, a2, a3, a4, a5, a6, a7⟩
      cases har
      unfold QCPColorScale.drawOp axisRectPrivateDraw
      simp [hflag]
    · intro hflag
      constructor
      · unfold QCPColorScale.drawOp axisRectPrivateDraw
        rw [har]
        dsimp only
        rw [hflag]
        rfl
      · intro hnz
        exact updateGradientImage_clears_flag lc col s.gradient s.axisType
          ar hnz

/-- Witness for `gradientImage_cache_correct`: a draw, a gradient change and
another draw on a concrete live color scale paint the images generated from
the gradients current at the respective draws. -/
theorem gradientImage_cache_correct_witness :
    (runOps (fun b : Bool => cond b 2 1)
      (fun b q _ => q.num.toNat + cond b 0 100)
      [CSOp.draw, CSOp.setGradient true, CSOp.draw]
      (sampleScale 4 3 true)).2 =
    (drawGradients [CSOp.draw, CSOp.setGradient true, CSOp.draw]
      (sampleScale 4 3 true).gradient).map (fun g =>
        (updateGradientImage (fun b : Bool => cond b 2 1)
          (fun b q _ => q.num.toNat + cond b 0 100) g
          (sampleScale 4 3 true).axisType
          (sampleAxisRect 4 3 true)).gradientImage) := by
  exact (gradientImage_cache_correct (fun b : Bool => cond b 2 1)
    (fun b q _ => q.num.toNat + cond b 0 100)).2.2
    [CSOp.draw, CSOp.setGradient true, CSOp.draw] (sampleScale 4 3 true)
    (sampleAxisRect 4 3 true) rfl (by decide)
    (by intro a ha
        cases Option.some.inj ha
        decide)
    (by decide)
